import Mathlib

/-!
# Verification of the settlement-manager request handlers

Shallow embedding of the three AWS Lambda handlers in
`src/infrastructure/lambda/` (`get_user_data.py`, `save_user_data.py`,
`delete_user_data.py`) and proofs about them.

Modelling conventions:
* JSON values are the inductive type `Json` below.  Python `int` is `Json.int`,
  Python `float` is `Json.float` carrying its exact rational value (the claims
  under study do not depend on IEEE rounding), `decimal.Decimal` — the type the
  storage layer hands back for numbers — is `Json.dec`, also carrying a rational.
* The DynamoDB table is, per the spec (§1, §6), a black-box key-value store
  supporting get/put/delete/query-by-partition-key; it is modelled as a list of
  items keyed by `(user_id, settlement_id)`.
* `datetime.utcnow().isoformat()` is modelled as an opaque `now : String`
  parameter of the write handler.
* Python's `json.loads` is modelled by the executable recursive-descent
  function `jsonLoads` below (objects, arrays, strings with the standard
  escapes, numbers with fraction/exponent, `true`/`false`/`null`, JSON
  whitespace); exotic extensions (`NaN`/`Infinity`, surrogate pairs) are
  outside the modelled event space.
-/

/-- JSON-ish runtime values as they occur in the handlers: the constructors
`null`, `bool`, `int`, `float`, `str`, `arr`, `obj` are the possible results of
`json.loads`; `dec` is `decimal.Decimal`, produced only by the storage layer. -/
inductive Json where
  | null : Json
  | bool (b : Bool) : Json
  | int (n : Int) : Json
  | float (q : ℚ) : Json
  | dec (q : ℚ) : Json
  | str (s : String) : Json
  | arr (elems : List Json) : Json
  | obj (fields : List (String × Json)) : Json
deriving Repr

/-- Field lookup in a JSON object, i.e. Python's `d.get(k)` on a parsed dict
(`none` on non-dicts, where Python would raise `AttributeError`). -/
def jsonLookup (v : Json) (k : String) : Option Json :=
  match v with
  | .obj fields => (fields.find? (fun p => p.1 == k)).map (fun p => p.2)
  | _ => none

/-- The numeric value of a JSON leaf, if it is numeric (`int`, `float` or
`Decimal`); used to model Python's cross-type numeric `==`. -/
def toRat? : Json → Option ℚ
  | .int n => some (mkRat n 1)
  | .float q => some q
  | .dec q => some q
  | _ => none

/-- `DecimalEncoder.default` (`get_user_data.py` lines 16–20) on a single
`Decimal`: `float(o) if o % 1 else int(o)` — integer when there is no
fractional part, float otherwise. -/
def normalizeDecimal (q : ℚ) : Json :=
  if q.den = 1 then .int q.num else .float q

mutual
/-- `json.dumps(·, cls=DecimalEncoder)` viewed as a value transformation: the
base encoder walks arrays and objects recursively and calls
`DecimalEncoder.default` on every `Decimal` leaf it meets. -/
def encodeJson : Json → Json
  | .null => .null
  | .bool b => .bool b
  | .int n => .int n
  | .float q => .float q
  | .dec q => normalizeDecimal q
  | .str s => .str s
  | .arr elems => .arr (encodeList elems)
  | .obj fields => .obj (encodeFields fields)

def encodeList : List Json → List Json
  | [] => []
  | v :: vs => encodeJson v :: encodeList vs

def encodeFields : List (String × Json) → List (String × Json)
  | [] => []
  | (k, v) :: fs => (k, encodeJson v) :: encodeFields fs
end

mutual
/-- `true` iff no `Decimal` leaf occurs anywhere in the value. -/
def decFree : Json → Bool
  | .dec _ => false
  | .arr elems => decFreeList elems
  | .obj fields => decFreeFields fields
  | _ => true

def decFreeList : List Json → Bool
  | [] => true
  | v :: vs => decFree v && decFreeList vs

def decFreeFields : List (String × Json) → Bool
  | [] => true
  | (_, v) :: fs => decFree v && decFreeFields fs
end

mutual
/-- Python deep equality (`==`) on JSON values: numeric leaves (`int`, `float`,
`Decimal`) compare by numeric value, containers compare recursively, everything
else structurally.  (Object comparison is modelled order-sensitively; every
positive `pyEq` fact proved below is therefore also a positive Python `==`
fact.) -/
def pyEq : Json → Json → Bool
  | .null, .null => true
  | .bool a, .bool b => a == b
  | .str a, .str b => a == b
  | .arr xs, .arr ys => pyEqList xs ys
  | .obj xs, .obj ys => pyEqFields xs ys
  | a, b =>
    match toRat? a, toRat? b with
    | some x, some y => x == y
    | _, _ => false

def pyEqList : List Json → List Json → Bool
  | [], [] => true
  | x :: xs, y :: ys => pyEq x y && pyEqList xs ys
  | _, _ => false

def pyEqFields : List (String × Json) → List (String × Json) → Bool
  | [], [] => true
  | (k, x) :: xs, (l, y) :: ys => k == l && pyEq x y && pyEqFields xs ys
  | _, _ => false
end

/-! ## A model of `json.loads`

A recursive-descent parser over the character list, with a fuel argument
bounding the recursion depth (the fuel chosen in `jsonLoads` dominates any
depth reachable on the given input). -/

/-- JSON whitespace, as accepted by Python's `json.loads`. -/
def jsonWs (c : Char) : Bool :=
  c = ' ' || c = '\t' || c = '\n' || c = '\r'

def skipWs : List Char → List Char
  | [] => []
  | c :: cs => if jsonWs c then skipWs cs else c :: cs

def hexVal (c : Char) : Option Nat :=
  if '0' ≤ c ∧ c ≤ '9' then some (c.toNat - 48)
  else if 'a' ≤ c ∧ c ≤ 'f' then some (c.toNat - 87)
  else if 'A' ≤ c ∧ c ≤ 'F' then some (c.toNat - 55)
  else none

/-- Parse the body of a JSON string literal (after the opening quote), with
the standard escapes; raw control characters are rejected as in Python's
strict mode. -/
def parseStringBody : List Char → List Char → Option (String × List Char)
  | _, [] => none
  | acc, c :: cs =>
    if c = '"' then some (String.mk acc.reverse, cs)
    else if c = '\\' then
      match cs with
      | [] => none
      | e :: cs1 =>
        if e = '"' then parseStringBody ('"' :: acc) cs1
        else if e = '\\' then parseStringBody ('\\' :: acc) cs1
        else if e = '/' then parseStringBody ('/' :: acc) cs1
        else if e = 'b' then parseStringBody (Char.ofNat 8 :: acc) cs1
        else if e = 'f' then parseStringBody (Char.ofNat 12 :: acc) cs1
        else if e = 'n' then parseStringBody ('\n' :: acc) cs1
        else if e = 'r' then parseStringBody ('\r' :: acc) cs1
        else if e = 't' then parseStringBody ('\t' :: acc) cs1
        else if e = 'u' then
          match cs1 with
          | h1 :: h2 :: h3 :: h4 :: cs2 =>
            match hexVal h1, hexVal h2, hexVal h3, hexVal h4 with
            | some a, some b, some c2, some d =>
              parseStringBody (Char.ofNat (((a * 16 + b) * 16 + c2) * 16 + d) :: acc) cs2
            | _, _, _, _ => none
          | _ => none
        else none
    else if c.toNat < 32 then none
    else parseStringBody (c :: acc) cs

def digitsToNat (ds : List Char) : Nat :=
  ds.foldl (fun a c => a * 10 + (c.toNat - 48)) 0

/-- Exponent part of a JSON number, after the `e`/`E`. -/
def parseExpTail (cs : List Char) : Option (Bool × List Char × List Char) :=
  let (eneg, cs1) :=
    match cs with
    | '+' :: rest => (false, rest)
    | '-' :: rest => (true, rest)
    | rest => (false, rest)
  let eds := cs1.takeWhile Char.isDigit
  if eds = [] then none else some (eneg, eds, cs1.dropWhile Char.isDigit)

/-- Assemble a parsed JSON number.  As in Python, a number without fraction
and exponent is an `int`; any other is a `float`, whose exact value is
`m * 10 ^ (exp - #fracDigits)`. -/
def buildNumber (neg : Bool) (ids fds : List Char) (eneg : Bool) (eds : List Char)
    (isFloat : Bool) : Json :=
  let m : Int := (digitsToNat (ids ++ fds) : Int)
  let m : Int := if neg then -m else m
  if isFloat then
    let e : Int := (if eneg then -(digitsToNat eds : Int) else (digitsToNat eds : Int)) -
      (fds.length : Int)
    let q : ℚ :=
      if 0 ≤ e then mkRat (m * Int.pow 10 e.toNat) 1
      else mkRat m (Nat.pow 10 (-e).toNat)
    Json.float q
  else Json.int m

/-- Parse a JSON number (leading zeros rejected, as in Python). -/
def parseNumber (cs : List Char) : Option (Json × List Char) :=
  let (neg, cs1) :=
    match cs with
    | '-' :: rest => (true, rest)
    | rest => (false, rest)
  let ids := cs1.takeWhile Char.isDigit
  let cs2 := cs1.dropWhile Char.isDigit
  if ids = [] then none
  else if 2 ≤ ids.length ∧ ids.take 1 = ['0'] then none
  else
    let fracStep : Option (List Char × List Char) :=
      match cs2 with
      | '.' :: rest =>
        let fds := rest.takeWhile Char.isDigit
        if fds = [] then none else some (fds, rest.dropWhile Char.isDigit)
      | _ => some ([], cs2)
    match fracStep with
    | none => none
    | some (fds, cs3) =>
      match cs3 with
      | 'e' :: rest =>
        match parseExpTail rest with
        | none => none
        | some (eneg, eds, cs4) => some (buildNumber neg ids fds eneg eds true, cs4)
      | 'E' :: rest =>
        match parseExpTail rest with
        | none => none
        | some (eneg, eds, cs4) => some (buildNumber neg ids fds eneg eds true, cs4)
      | _ => some (buildNumber neg ids fds false [] (fds ≠ []), cs3)

mutual
def parseValue : Nat → List Char → Option (Json × List Char)
  | 0, _ => none
  | fuel + 1, cs =>
    match skipWs cs with
    | [] => none
    | c :: rest =>
      if c = '"' then
        match parseStringBody [] rest with
        | some (s, rest1) => some (Json.str s, rest1)
        | none => none
      else if c = Char.ofNat 123 then parseObjTail fuel rest
      else if c = '[' then parseArrTail fuel rest
      else
        match c :: rest with
        | 't' :: 'r' :: 'u' :: 'e' :: rest1 => some (Json.bool true, rest1)
        | 'f' :: 'a' :: 'l' :: 's' :: 'e' :: rest1 => some (Json.bool false, rest1)
        | 'n' :: 'u' :: 'l' :: 'l' :: rest1 => some (Json.null, rest1)
        | cs1 => parseNumber cs1

def parseObjTail : Nat → List Char → Option (Json × List Char)
  | 0, _ => none
  | fuel + 1, cs =>
    match skipWs cs with
    | [] => none
    | c :: rest =>
      if c = Char.ofNat 125 then some (Json.obj [], rest)
      else parseMembers fuel (c :: rest) []

def parseMembers : Nat → List Char → List (String × Json) → Option (Json × List Char)
  | 0, _, _ => none
  | fuel + 1, cs, acc =>
    match skipWs cs with
    | '"' :: rest =>
      match parseStringBody [] rest with
      | none => none
      | some (k, rest1) =>
        match skipWs rest1 with
        | ':' :: rest2 =>
          match parseValue fuel rest2 with
          | none => none
          | some (v, rest3) =>
            match skipWs rest3 with
            | [] => none
            | ',' :: rest4 => parseMembers fuel rest4 ((k, v) :: acc)
            | c :: rest4 =>
              if c = Char.ofNat 125 then some (Json.obj ((k, v) :: acc).reverse, rest4)
              else none
        | _ => none
    | _ => none

def parseArrTail : Nat → List Char → Option (Json × List Char)
  | 0, _ => none
  | fuel + 1, cs =>
    match skipWs cs with
    | ']' :: rest => some (Json.arr [], rest)
    | cs1 => parseElems fuel cs1 []

def parseElems : Nat → List Char → List Json → Option (Json × List Char)
  | 0, _, _ => none
  | fuel + 1, cs, acc =>
    match parseValue fuel cs with
    | none => none
    | some (v, rest) =>
      match skipWs rest with
      | ',' :: rest1 => parseElems fuel rest1 (v :: acc)
      | ']' :: rest1 => some (Json.arr (v :: acc).reverse, rest1)
      | _ => none
end

/-- Model of Python's `json.loads`: parse one JSON value and require only
whitespace to remain. -/
def jsonLoads (s : String) : Option Json :=
  match parseValue (3 * s.length + 8) s.data with
  | some (v, rest) => if skipWs rest = [] then some v else none
  | none => none

/-! ## A model of `base64.urlsafe_b64decode` -/

/-- The value of a base64 alphabet character.  `urlsafe_b64decode` translates
`-`/`_` to `+`/`/` before decoding, so both alphabets are accepted. -/
def b64Val (c : Char) : Option Nat :=
  if 'A' ≤ c ∧ c ≤ 'Z' then some (c.toNat - 65)
  else if 'a' ≤ c ∧ c ≤ 'z' then some (c.toNat - 71)
  else if '0' ≤ c ∧ c ≤ '9' then some (c.toNat + 4)
  else if c = '-' ∨ c = '+' then some 62
  else if c = '_' ∨ c = '/' then some 63
  else none

/-- Decode a run of 6-bit values into bytes (a final group of 2 or 3
characters yields 1 or 2 bytes). -/
def b64Groups : List Nat → List Nat
  | a :: b :: c :: d :: rest =>
    (a * 4 + b / 16) :: ((b % 16) * 16 + c / 4) :: ((c % 4) * 64 + d) :: b64Groups rest
  | [a, b] => [a * 4 + b / 16]
  | [a, b, c] => [a * 4 + b / 16, (b % 16) * 16 + c / 4]
  | _ => []

/-- Model of `base64.urlsafe_b64decode`: characters outside the alphabet are
discarded (the default non-validating mode), the total length must then be a
multiple of 4 (else `binascii.Error: Incorrect padding`), trailing `=` padding
is stripped, and a data length of 1 mod 4 is impossible. -/
def base64urlDecode (s : String) : Option (List Nat) :=
  let kept := s.data.filter (fun c => (b64Val c).isSome || c = '=')
  if kept.length % 4 ≠ 0 then none
  else
    let data := kept.takeWhile (fun c => c ≠ '=')
    if data.length % 4 = 1 then none
    else some (b64Groups (data.filterMap b64Val))

/-- Decode bytes to text; the modelled event space is ASCII (a strict subset
of the UTF-8 decoding `json.loads` applies to a `bytes` argument). -/
def asciiString? (bs : List Nat) : Option String :=
  if bs.all (fun b => b < 128) then some (String.mk (bs.map Char.ofNat)) else none

example : jsonLoads " \x7b\"sub\": \"u1\", \"n\": [1, -2.5, 3e2]\x7d " =
    some (Json.obj [("sub", Json.str "u1"),
      ("n", Json.arr [Json.int 1, Json.float (mkRat (-5) 2), Json.float (mkRat 300 1)])]) := by
  rfl

example : jsonLoads "\x7b\"a\": 1" = none := by rfl

example : jsonLoads "01" = none := by rfl

example : (base64urlDecode "eyJzdWIiOiJ1MSJ9").bind asciiString? =
    some "\x7b\"sub\":\"u1\"\x7d" := by rfl

/-! ## Events, the table, and the handlers -/

/-- The parts of an API Gateway proxy event that the handlers read:
`requestContext.authorizer.claims.sub` (claims are string-valued per the
gateway contract), `headers.Authorization`, `pathParameters.settlement_id`,
and the raw request body (`none` models an absent `body` key, for which the
code substitutes the default `'\x7b\x7d'`). -/
structure Event where
  claimsSub : Option String
  authorization : Option String
  pathSettlementId : Option String
  body : Option String
deriving Repr

/-- A stored settlement record, exactly the dict built by
`save_user_data.py` lines 101–106. -/
structure Item where
  user_id : String
  settlement_id : String
  data : Json
  updated_at : String
deriving Repr

/-- The black-box key-value table of the spec (§1, §6), keyed by
`(user_id, settlement_id)`. -/
abbrev Store := List Item

/-- `table.get_item(Key=...)`: the record under the exact key, if any. -/
def getItem (σ : Store) (uid sid : String) : Option Item :=
  σ.find? (fun it => it.user_id == uid && it.settlement_id == sid)

/-- `table.put_item(Item=...)`: full replacement of the record under the
item's key. -/
def putItem (σ : Store) (it : Item) : Store :=
  it :: σ.filter (fun j => !(j.user_id == it.user_id && j.settlement_id == it.settlement_id))

/-- `table.delete_item(Key=...)`: removes the record under the key;
idempotent by the storage contract. -/
def deleteItem (σ : Store) (uid sid : String) : Store :=
  σ.filter (fun j => !(j.user_id == uid && j.settlement_id == sid))

/-- `table.query(KeyConditionExpression='user_id = :user_id')`: all records
whose partition key equals `uid`, in storage order. -/
def queryItems (σ : Store) (uid : String) : List Item :=
  σ.filter (fun it => it.user_id == uid)

/-- Python truthiness of an optional string (`if user_id:` /
`if settlement_id:`): an absent or empty string is falsy. -/
def truthy : Option String → Option String
  | some s => if s = "" then none else some s
  | none => none

/-- `s.startswith(p)` on explicit character lists. -/
def listStartsWith (s p : List Char) : Bool :=
  match p, s with
  | [], _ => true
  | _ :: _, [] => false
  | pc :: ps, sc :: ss => pc == sc && listStartsWith ss ps

/-- Python's `token.split('.')` (a non-empty separator never yields an empty
result list; `''.split('.') == ['']`). -/
def splitOnDot : List Char → List (List Char)
  | [] => [[]]
  | c :: rest =>
    let r := splitOnDot rest
    if c = '.' then [] :: r
    else
      match r with
      | h :: t => (c :: h) :: t
      | [] => [[c]]

/-- `extract_user_id` of `get_user_data.py` lines 31–72 (identical in
`save_user_data.py`): the pre-validated claim set's `sub` if truthy, else the
decoded payload segment of a `Bearer` token; any failure raises `ValueError`
(modelled as `.error`).  Non-string decoded `sub` claims are outside the
modelled event space (the spec's caller identity is a string). -/
def extract_user_id (e : Event) : Except String String :=
  match truthy e.claimsSub with
  | some uid => .ok uid
  | none =>
    let auth := (e.authorization.getD "").data
    if ¬ listStartsWith auth "Bearer ".data then
      .error "Missing or invalid Authorization header"
    else
      let token := auth.drop 7
      match splitOnDot token with
      | [_, payload, _] =>
        let padding := 4 - payload.length % 4
        let padded :=
          if padding ≠ 4 then payload ++ List.replicate padding '=' else payload
        match base64urlDecode (String.mk padded) with
        | none => .error "Invalid token: decode error"
        | some bytes =>
          match asciiString? bytes with
          | none => .error "Invalid token: decode error"
          | some decoded =>
            match jsonLoads decoded with
            | none => .error "Invalid token: parse error"
            | some claims =>
              match jsonLookup claims "sub" with
              | some (Json.str u) =>
                if u = "" then .error "Invalid token: User ID not found in token" else .ok u
              | _ => .error "Invalid token: User ID not found in token"
      | _ => .error "Invalid token: Invalid JWT format"

/-- `extract_user_id` of `delete_user_data.py` lines 23–32: only the
pre-validated claim set is consulted; there is no bearer-token fallback. -/
def delete_extract_user_id (e : Event) : Except String String :=
  match truthy e.claimsSub with
  | some uid => .ok uid
  | none => .error "User ID not found in authorization context"

/-- The fallback path of the identity extractor as claim C3 / spec §4.1
describe it: require a `Bearer <token>` header, split the token on `.` into
exactly three segments, base64url-decode the middle segment after restoring
`=` padding, parse the result as JSON, extract a non-empty `sub`; fail
otherwise. -/
def bearerTokenSub (e : Event) : Except String String :=
  let auth := (e.authorization.getD "").data
  if ¬ listStartsWith auth "Bearer ".data then
    .error "Missing or invalid Authorization header"
  else
    match splitOnDot (auth.drop 7) with
    | [_, payload, _] =>
      let padding := 4 - payload.length % 4
      let padded :=
        if padding ≠ 4 then payload ++ List.replicate padding '=' else payload
      match base64urlDecode (String.mk padded) with
      | none => .error "Invalid token: decode error"
      | some bytes =>
        match asciiString? bytes with
        | none => .error "Invalid token: decode error"
        | some decoded =>
          match jsonLoads decoded with
          | none => .error "Invalid token: parse error"
          | some claims =>
            match jsonLookup claims "sub" with
            | some (Json.str u) =>
              if u = "" then .error "Invalid token: User ID not found in token" else .ok u
            | _ => .error "Invalid token: User ID not found in token"
    | _ => .error "Invalid token: Invalid JWT format"

/-- The `{statusCode, headers, body}` envelope; `body` is the JSON value the
handler serializes (`json.dumps`). -/
structure Response where
  statusCode : Nat
  headers : List (String × String)
  body : Json
deriving Repr

/-- The permissive CORS header set that appears verbatim in the sources. -/
def corsHeaders : List (String × String) :=
  [("Access-Control-Allow-Origin", "*"),
   ("Access-Control-Allow-Headers", "Content-Type,Authorization"),
   ("Access-Control-Allow-Methods", "GET,POST,DELETE,OPTIONS")]

def errorBody (msg : String) : Json := .obj [("error", .str msg)]

/-- `json.dumps(item, ...)` on a stored record: the dict with its four
fields, in insertion order. -/
def itemToJson (it : Item) : Json :=
  .obj [("user_id", .str it.user_id), ("settlement_id", .str it.settlement_id),
    ("data", it.data), ("updated_at", .str it.updated_at)]

/-- `lambda_handler` of `get_user_data.py` lines 75–166.  Returns the
response together with the (unchanged) table state. -/
def get_lambda_handler (e : Event) (σ : Store) : Response × Store :=
  match extract_user_id e with
  | .error msg => (⟨401, corsHeaders, errorBody msg⟩, σ)
  | .ok uid =>
    match truthy e.pathSettlementId with
    | some sid =>
      match getItem σ uid sid with
      | none => (⟨404, corsHeaders, errorBody "Settlement not found"⟩, σ)
      | some it => (⟨200, corsHeaders, encodeJson (itemToJson it)⟩, σ)
    | none =>
      (⟨200, corsHeaders, encodeJson (.arr ((queryItems σ uid).map itemToJson))⟩, σ)

/-- `lambda_handler` of `save_user_data.py` lines 75–159.  `now` models
`datetime.utcnow().isoformat()`.  Note the missing-`settlement_id` 400
response carries no headers in the source (lines 90–93), and
`json.JSONDecodeError` is matched before its superclass `ValueError`
(lines 127, 138). -/
def save_lambda_handler (now : String) (e : Event) (σ : Store) : Response × Store :=
  match extract_user_id e with
  | .error msg => (⟨401, corsHeaders, errorBody msg⟩, σ)
  | .ok uid =>
    match truthy e.pathSettlementId with
    | none => (⟨400, [], errorBody "settlement_id is required"⟩, σ)
    | some sid =>
      match jsonLoads (e.body.getD "\x7b\x7d") with
      | none => (⟨400, corsHeaders, errorBody "Invalid JSON in request body"⟩, σ)
      | some parsed =>
        (⟨200, corsHeaders,
          .obj [("message", .str "Data saved successfully"), ("user_id", .str uid),
            ("settlement_id", .str sid)]⟩,
         putItem σ ⟨uid, sid, parsed, now⟩)

/-- `lambda_handler` of `delete_user_data.py` lines 34–86.  No response of
this handler carries any headers in the source. -/
def delete_lambda_handler (e : Event) (σ : Store) : Response × Store :=
  match delete_extract_user_id e with
  | .error msg => (⟨401, [], errorBody msg⟩, σ)
  | .ok uid =>
    match truthy e.pathSettlementId with
    | none => (⟨400, [], errorBody "settlement_id is required"⟩, σ)
    | some sid =>
      (⟨200, [],
        .obj [("message", .str "Data deleted successfully"), ("user_id", .str uid),
          ("settlement_id", .str sid)]⟩,
       deleteItem σ uid sid)

example :
    extract_user_id ⟨none, some "Bearer hdr.eyJzdWIiOiJ1MSJ9.sig", none, none⟩ = .ok "u1" := by
  rfl

example :
    extract_user_id ⟨some "u9", some "Bearer hdr.eyJzdWIiOiJ1MSJ9.sig", none, none⟩ =
      .ok "u9" := by
  rfl

example :
    delete_extract_user_id ⟨none, some "Bearer hdr.eyJzdWIiOiJ1MSJ9.sig", none, none⟩ =
      .error "User ID not found in authorization context" := by
  rfl

example : extract_user_id ⟨some "", none, none, none⟩ =
    .error "Missing or invalid Authorization header" := by rfl

/-! ## Helper lemmas -/

mutual
theorem decFree_encodeJson : ∀ v : Json, decFree (encodeJson v) = true
  | .null => rfl
  | .bool _ => rfl
  | .int _ => rfl
  | .float _ => rfl
  | .dec q => by
    simp only [encodeJson, normalizeDecimal]
    split <;> rfl
  | .str _ => rfl
  | .arr xs => by simpa only [encodeJson, decFree] using decFree_encodeList xs
  | .obj fs => by simpa only [encodeJson, decFree] using decFree_encodeFields fs

theorem decFree_encodeList : ∀ xs : List Json, decFreeList (encodeList xs) = true
  | [] => rfl
  | x :: xs => by
    simp only [encodeList, decFreeList, Bool.and_eq_true]
    exact ⟨decFree_encodeJson x, decFree_encodeList xs⟩

theorem decFree_encodeFields : ∀ fs : List (String × Json),
    decFreeFields (encodeFields fs) = true
  | [] => rfl
  | (k, v) :: fs => by
    simp only [encodeFields, decFreeFields, Bool.and_eq_true]
    exact ⟨decFree_encodeJson v, decFree_encodeFields fs⟩
end

mutual
theorem encodeJson_of_decFree : ∀ v : Json, decFree v = true → encodeJson v = v
  | .null, _ => rfl
  | .bool _, _ => rfl
  | .int _, _ => rfl
  | .float _, _ => rfl
  | .dec _, h => by simp [decFree] at h
  | .str _, _ => rfl
  | .arr xs, h => by
    simp only [encodeJson]
    rw [encodeList_of_decFree xs (by simpa only [decFree] using h)]
  | .obj fs, h => by
    simp only [encodeJson]
    rw [encodeFields_of_decFree fs (by simpa only [decFree] using h)]

theorem encodeList_of_decFree : ∀ xs : List Json, decFreeList xs = true → encodeList xs = xs
  | [], _ => rfl
  | x :: xs, h => by
    simp only [decFreeList, Bool.and_eq_true] at h
    simp only [encodeList]
    rw [encodeJson_of_decFree x h.1, encodeList_of_decFree xs h.2]

theorem encodeFields_of_decFree : ∀ fs : List (String × Json), decFreeFields fs = true →
    encodeFields fs = fs
  | [], _ => rfl
  | (k, v) :: fs, h => by
    simp only [decFreeFields, Bool.and_eq_true] at h
    simp only [encodeFields]
    rw [encodeJson_of_decFree v h.1, encodeFields_of_decFree fs h.2]
end

mutual
theorem pyEq_encodeJson : ∀ v : Json, pyEq (encodeJson v) v = true
  | .null => rfl
  | .bool b => by simp [encodeJson, pyEq]
  | .int n => by simp [encodeJson, pyEq, toRat?]
  | .float q => by simp [encodeJson, pyEq, toRat?]
  | .dec q => by
    simp only [encodeJson, normalizeDecimal]
    split
    case isTrue h => simp [pyEq, toRat?, Rat.coe_int_num_of_den_eq_one h]
    case isFalse h => simp [pyEq, toRat?]
  | .str s => by simp [encodeJson, pyEq]
  | .arr xs => by simpa only [encodeJson, pyEq] using pyEqList_encodeList xs
  | .obj fs => by simpa only [encodeJson, pyEq] using pyEqFields_encodeFields fs

theorem pyEqList_encodeList : ∀ xs : List Json, pyEqList (encodeList xs) xs = true
  | [] => rfl
  | x :: xs => by
    simp only [encodeList, pyEqList, Bool.and_eq_true]
    exact ⟨pyEq_encodeJson x, pyEqList_encodeList xs⟩

theorem pyEqFields_encodeFields : ∀ fs : List (String × Json),
    pyEqFields (encodeFields fs) fs = true
  | [] => rfl
  | (k, v) :: fs => by
    simp only [encodeFields, pyEqFields, Bool.and_eq_true]
    refine ⟨⟨?_, pyEq_encodeJson v⟩, pyEqFields_encodeFields fs⟩
    simp
end

/-- Filtering twice with the same predicate filters once. -/
theorem filter_idem {α : Type} (p : α → Bool) (l : List α) :
    (l.filter p).filter p = l.filter p := by
  induction l with
  | nil => rfl
  | cons x xs ih =>
    by_cases h : p x = true <;> simp [List.filter, h, ih]

/-- A freshly put item is found under its own key. -/
theorem getItem_putItem (σ : Store) (it : Item) :
    getItem (putItem σ it) it.user_id it.settlement_id = some it := by
  simp [getItem, putItem, List.find?]

/-- A failing full identity extraction means the claim-set path failed too. -/
theorem truthy_claims_of_extract_error (e : Event) (msg : String)
    (h : extract_user_id e = .error msg) : truthy e.claimsSub = none := by
  rcases hc : truthy e.claimsSub with _ | u
  · rfl
  · unfold extract_user_id at h
    rw [hc] at h
    simp at h

/-! ## Concrete events and stores used in closed theorems -/

def evClaimsU1S1 : Event := ⟨some "u1", none, some "s1", some "\x7b\"amount\": 42\x7d"⟩

def evClaimsNoSid : Event := ⟨some "u1", none, none, none⟩

def evEmptySid : Event := ⟨some "u1", none, some "", some "\x7b\"amount\": 42\x7d"⟩

def evBearer : Event := ⟨none, some "Bearer hdr.eyJzdWIiOiJ1MSJ9.sig", some "s1", none⟩

def evNoAuth : Event := ⟨none, none, some "s1", none⟩

def evBadJson : Event := ⟨some "u1", none, some "s1", some "not json"⟩

def itemU1S1 : Item := ⟨"u1", "s1", Json.int 7, "t0"⟩

def itemU2S1 : Item := ⟨"u2", "s1", Json.int 9, "t0"⟩

/-! ## Claims -/

/-- C9: every value serialized into a read-handler response is normalized
recursively: the encoding leaves no `Decimal` at any nesting depth, is the
identity on `Decimal`-free values, and converts each `Decimal` leaf to an
integer exactly when it has no fractional part and to a float otherwise. -/
theorem C9_decimal_normalization :
    (∀ v : Json, decFree (encodeJson v) = true) ∧
    (∀ v : Json, decFree v = true → encodeJson v = v) ∧
    (∀ q : ℚ, encodeJson (Json.dec q) =
      if q.den = 1 then Json.int q.num else Json.float q) :=
  ⟨decFree_encodeJson, encodeJson_of_decFree, fun _ => by simp [encodeJson, normalizeDecimal]⟩

theorem C9_decimal_normalization_witness :
    decFree (encodeJson (Json.obj [("a",
      Json.arr [Json.dec (mkRat 3 2), Json.dec (mkRat 4 1)])])) = true ∧
    encodeJson (Json.obj [("a", Json.int 4)]) = Json.obj [("a", Json.int 4)] ∧
    encodeJson (Json.dec (mkRat 3 2)) =
      (if (mkRat 3 2 : ℚ).den = 1 then Json.int (mkRat 3 2 : ℚ).num
       else Json.float (mkRat 3 2)) :=
  ⟨C9_decimal_normalization.1 _, C9_decimal_normalization.2.1 _ (by rfl),
    C9_decimal_normalization.2.2 (mkRat 3 2)⟩

/-- C2 counterexample: the delete handler's 200 response and the write
handler's missing-`settlement_id` 400 response carry no CORS headers at all
(`delete_user_data.py` lines 66–73, `save_user_data.py` lines 90–93), so the
claim that every response path of every handler includes
`Access-Control-Allow-Origin: *` is false. -/
theorem C2_counterexample :
    (delete_lambda_handler evClaimsU1S1 []).1.statusCode = 200 ∧
    ("Access-Control-Allow-Origin", "*") ∉ (delete_lambda_handler evClaimsU1S1 []).1.headers ∧
    (save_lambda_handler "t0" evClaimsNoSid []).1.statusCode = 400 ∧
    ("Access-Control-Allow-Origin", "*") ∉
      (save_lambda_handler "t0" evClaimsNoSid []).1.headers := by
  refine ⟨rfl, ?_, rfl, ?_⟩ <;> simp [delete_lambda_handler, save_lambda_handler,
    delete_extract_user_id, extract_user_id, evClaimsU1S1, evClaimsNoSid, truthy]

/-- C2 amended: every response of the read handler carries the permissive
CORS headers; the write handler's responses carry them except the 400 for a
missing `settlement_id`, which has no headers; the delete handler's responses
never carry headers. -/
theorem C2_cors_amended (now : String) (e : Event) (σ : Store) :
    (get_lambda_handler e σ).1.headers = corsHeaders ∧
    (delete_lambda_handler e σ).1.headers = [] ∧
    ((save_lambda_handler now e σ).1.headers = corsHeaders ∨
      ((save_lambda_handler now e σ).1.statusCode = 400 ∧
        (save_lambda_handler now e σ).1.headers = [])) := by
  refine ⟨?_, ?_, ?_⟩
  · unfold get_lambda_handler
    repeat' split
    all_goals rfl
  · unfold delete_lambda_handler
    repeat' split
    all_goals rfl
  · unfold save_lambda_handler
    repeat' split
    all_goals first
      | exact Or.inl rfl
      | exact Or.inr ⟨rfl, rfl⟩

/-- C8: whenever the caller's identity cannot be resolved (no usable claim
set and no decodable bearer token, i.e. `extract_user_id` fails), all three
handlers return 401 and leave the table unchanged. -/
theorem C8_unauthorized_401 (now : String) (e : Event) (σ : Store) (msg : String)
    (hid : extract_user_id e = .error msg) :
    (get_lambda_handler e σ).1.statusCode = 401 ∧ (get_lambda_handler e σ).2 = σ ∧
    (save_lambda_handler now e σ).1.statusCode = 401 ∧ (save_lambda_handler now e σ).2 = σ ∧
    (delete_lambda_handler e σ).1.statusCode = 401 ∧ (delete_lambda_handler e σ).2 = σ := by
  have hc : truthy e.claimsSub = none := truthy_claims_of_extract_error e msg hid
  have hd : delete_extract_user_id e = .error "User ID not found in authorization context" := by
    unfold delete_extract_user_id
    rw [hc]
  simp [get_lambda_handler, save_lambda_handler, delete_lambda_handler, hid, hd]

theorem C8_unauthorized_401_witness :
    (get_lambda_handler evNoAuth []).1.statusCode = 401 ∧
    (get_lambda_handler evNoAuth []).2 = [] ∧
    (save_lambda_handler "t0" evNoAuth []).1.statusCode = 401 ∧
    (save_lambda_handler "t0" evNoAuth []).2 = [] ∧
    (delete_lambda_handler evNoAuth []).1.statusCode = 401 ∧
    (delete_lambda_handler evNoAuth []).2 = [] :=
  C8_unauthorized_401 "t0" evNoAuth [] "Missing or invalid Authorization header" (by rfl)

/-- C4: a read without a `settlement_id` path parameter returns 200, leaves
the table unchanged, and its body is exactly the caller's partition —
an item is listed iff it is in the table with `user_id` equal to the caller's
identity. -/
theorem C4_read_all_partition (e : Event) (σ : Store) (uid : String)
    (hid : extract_user_id e = .ok uid) (hsid : e.pathSettlementId = none) :
    (get_lambda_handler e σ).2 = σ ∧
    (get_lambda_handler e σ).1.statusCode = 200 ∧
    (get_lambda_handler e σ).1.body =
      encodeJson (Json.arr ((queryItems σ uid).map itemToJson)) ∧
    ∀ it : Item, it ∈ queryItems σ uid ↔ (it ∈ σ ∧ it.user_id = uid) := by
  have ht : truthy e.pathSettlementId = none := by rw [hsid]; rfl
  refine ⟨?_, ?_, ?_, ?_⟩
  · simp [get_lambda_handler, hid, ht]
  · simp [get_lambda_handler, hid, ht]
  · simp [get_lambda_handler, hid, ht]
  · intro it
    simp [queryItems, List.mem_filter]

theorem C4_read_all_partition_witness :
    (get_lambda_handler evClaimsNoSid [itemU1S1, itemU2S1]).2 = [itemU1S1, itemU2S1] ∧
    (get_lambda_handler evClaimsNoSid [itemU1S1, itemU2S1]).1.statusCode = 200 ∧
    (get_lambda_handler evClaimsNoSid [itemU1S1, itemU2S1]).1.body =
      encodeJson (Json.arr ((queryItems [itemU1S1, itemU2S1] "u1").map itemToJson)) ∧
    ∀ it : Item, it ∈ queryItems [itemU1S1, itemU2S1] "u1" ↔
      (it ∈ [itemU1S1, itemU2S1] ∧ it.user_id = "u1") :=
  C4_read_all_partition evClaimsNoSid [itemU1S1, itemU2S1] "u1" (by rfl) rfl

/-- C5: a write or delete with a missing `settlement_id`, and a write whose
body fails to parse as JSON, return 400 and leave the table unchanged. -/
theorem C5_bad_request_no_mutation (now : String) (e : Event) (σ : Store) (uid : String)
    (hid : extract_user_id e = .ok uid) (hidD : delete_extract_user_id e = .ok uid) :
    (e.pathSettlementId = none →
      (save_lambda_handler now e σ).1.statusCode = 400 ∧
      (save_lambda_handler now e σ).2 = σ ∧
      (delete_lambda_handler e σ).1.statusCode = 400 ∧
      (delete_lambda_handler e σ).2 = σ) ∧
    (∀ bs, e.body = some bs → jsonLoads bs = none →
      (save_lambda_handler now e σ).1.statusCode = 400 ∧
      (save_lambda_handler now e σ).2 = σ) := by
  constructor
  · intro hsid
    have ht : truthy e.pathSettlementId = none := by rw [hsid]; rfl
    simp [save_lambda_handler, delete_lambda_handler, hid, hidD, ht]
  · intro bs hb hp
    rcases ht : truthy e.pathSettlementId with _ | sid
    · simp [save_lambda_handler, hid, ht]
    · simp [save_lambda_handler, hid, ht, hb, hp]

/-- C1 counterexample: with the empty string as `settlement_id` (a string,
so inside the claim's quantifier), the write handler stores nothing (400) and
the subsequent read returns the list response, which has no `data` field at
all — the claimed 200-with-matching-`data` read fails. -/
theorem C1_counterexample :
    (save_lambda_handler "t0" evEmptySid []).1.statusCode = 400 ∧
    (save_lambda_handler "t0" evEmptySid []).2 = [] ∧
    (get_lambda_handler evEmptySid ((save_lambda_handler "t0" evEmptySid []).2)).1.statusCode
      = 200 ∧
    (jsonLookup (get_lambda_handler evEmptySid
      ((save_lambda_handler "t0" evEmptySid []).2)).1.body "data").isNone = true :=
  ⟨rfl, rfl, rfl, rfl⟩

/-- C1 amended: for every identity and every non-empty `settlement_id`,
writing a payload and then reading the same key returns 200 with a record
whose `data` field deep-equals the payload. -/
theorem C1_roundtrip_amended (now uid sid bs : String) (payload : Json) (ew er : Event)
    (σ : Store) (hsid : sid ≠ "")
    (hw1 : extract_user_id ew = .ok uid) (hw2 : ew.pathSettlementId = some sid)
    (hw3 : ew.body = some bs) (hp : jsonLoads bs = some payload)
    (hr1 : extract_user_id er = .ok uid) (hr2 : er.pathSettlementId = some sid) :
    (save_lambda_handler now ew σ).1.statusCode = 200 ∧
    (get_lambda_handler er ((save_lambda_handler now ew σ).2)).1.statusCode = 200 ∧
    ∃ d, jsonLookup (get_lambda_handler er
        ((save_lambda_handler now ew σ).2)).1.body "data" = some d ∧
      pyEq d payload = true := by
  have htw : truthy ew.pathSettlementId = some sid := by rw [hw2]; simp [truthy, hsid]
  have htr : truthy er.pathSettlementId = some sid := by rw [hr2]; simp [truthy, hsid]
  have hsave : save_lambda_handler now ew σ =
      (⟨200, corsHeaders,
        .obj [("message", .str "Data saved successfully"), ("user_id", .str uid),
          ("settlement_id", .str sid)]⟩,
       putItem σ ⟨uid, sid, payload, now⟩) := by
    simp [save_lambda_handler, hw1, htw, hw3, hp]
  have hget : getItem (putItem σ ⟨uid, sid, payload, now⟩) uid sid =
      some ⟨uid, sid, payload, now⟩ := getItem_putItem σ ⟨uid, sid, payload, now⟩
  rw [hsave]
  refine ⟨rfl, ?_, ?_⟩
  · simp [get_lambda_handler, hr1, htr, hget]
  · simp only [get_lambda_handler, hr1, htr, hget]
    refine ⟨encodeJson payload, ?_, pyEq_encodeJson payload⟩
    simp [itemToJson, encodeJson, encodeFields, jsonLookup, List.find?]

theorem C1_roundtrip_witness :
    (save_lambda_handler "t0" evClaimsU1S1 []).1.statusCode = 200 ∧
    (get_lambda_handler evClaimsU1S1
      ((save_lambda_handler "t0" evClaimsU1S1 []).2)).1.statusCode = 200 ∧
    ∃ d, jsonLookup (get_lambda_handler evClaimsU1S1
        ((save_lambda_handler "t0" evClaimsU1S1 []).2)).1.body "data" = some d ∧
      pyEq d (Json.obj [("amount", Json.int 42)]) = true :=
  C1_roundtrip_amended "t0" "u1" "s1" "\x7b\"amount\": 42\x7d"
    (Json.obj [("amount", Json.int 42)]) evClaimsU1S1 evClaimsU1S1 []
    (by decide) (by rfl) rfl rfl (by rfl) (by rfl) rfl

/-- C3 counterexample: an event with no pre-validated claims but a
well-formed bearer token.  The read/write extractor resolves `u1` through the
fallback, but the delete handler's extractor has no fallback and fails, so
the claimed extractor behaviour does not hold for every handler. -/
theorem C3_counterexample :
    extract_user_id evBearer = .ok "u1" ∧
    delete_extract_user_id evBearer = .error "User ID not found in authorization context" ∧
    (delete_lambda_handler evBearer []).1.statusCode = 401 :=
  ⟨rfl, rfl, rfl⟩

/-- C3 amended: the read and write handlers' extractor returns the claim
set's `sub` when truthy and otherwise follows exactly the described bearer
decode (`bearerTokenSub`); the delete handler's extractor succeeds only on
the claim-set path. -/
theorem C3_extractor_amended (e : Event) :
    (∀ u, truthy e.claimsSub = some u → extract_user_id e = .ok u) ∧
    (truthy e.claimsSub = none → extract_user_id e = bearerTokenSub e) ∧
    (∀ u, delete_extract_user_id e = .ok u ↔ truthy e.claimsSub = some u) := by
  refine ⟨?_, ?_, ?_⟩
  · intro u hu
    unfold extract_user_id
    rw [hu]
  · intro hc
    unfold extract_user_id bearerTokenSub
    rw [hc]
  · intro u
    unfold delete_extract_user_id
    rcases hc : truthy e.claimsSub with _ | v <;> simp

theorem C3_extractor_amended_witness :
    extract_user_id evClaimsU1S1 = .ok "u1" ∧
    extract_user_id evBearer = bearerTokenSub evBearer ∧
    delete_extract_user_id evClaimsU1S1 = .ok "u1" :=
  ⟨(C3_extractor_amended evClaimsU1S1).1 "u1" (by rfl),
   (C3_extractor_amended evBearer).2.1 (by rfl),
   ((C3_extractor_amended evClaimsU1S1).2.2 "u1").mpr (by rfl)⟩

/-- C6 counterexample: with `settlement_id` present but empty and no record
under the key, the read handler returns 200 (the list response), not the
claimed 404. -/
theorem C6_counterexample :
    evEmptySid.pathSettlementId = some "" ∧
    getItem [] "u1" "" = none ∧
    (get_lambda_handler evEmptySid []).1.statusCode = 200 :=
  ⟨rfl, rfl, rfl⟩

/-- C6 amended: for a present, non-empty `settlement_id`, the read handler
leaves the table unchanged and returns 200 with the normalized stored record
when it exists, 404 exactly when it does not. -/
theorem C6_single_read_amended (e : Event) (σ : Store) (uid sid : String)
    (hid : extract_user_id e = .ok uid) (hsid : e.pathSettlementId = some sid)
    (hne : sid ≠ "") :
    (get_lambda_handler e σ).2 = σ ∧
    (∀ it, getItem σ uid sid = some it →
      (get_lambda_handler e σ).1.statusCode = 200 ∧
      (get_lambda_handler e σ).1.body = encodeJson (itemToJson it)) ∧
    (getItem σ uid sid = none → (get_lambda_handler e σ).1.statusCode = 404) := by
  have ht : truthy e.pathSettlementId = some sid := by rw [hsid]; simp [truthy, hne]
  refine ⟨?_, ?_, ?_⟩
  · rcases hg : getItem σ uid sid with _ | it <;> simp [get_lambda_handler, hid, ht, hg]
  · intro it hg
    simp [get_lambda_handler, hid, ht, hg]
  · intro hg
    simp [get_lambda_handler, hid, ht, hg]

theorem C6_single_read_amended_witness :
    (get_lambda_handler evClaimsU1S1 [itemU1S1]).1.statusCode = 200 ∧
    (get_lambda_handler evClaimsU1S1 [itemU1S1]).1.body = encodeJson (itemToJson itemU1S1) ∧
    (get_lambda_handler evClaimsU1S1 []).1.statusCode = 404 :=
  ⟨((C6_single_read_amended evClaimsU1S1 [itemU1S1] "u1" "s1" (by rfl) rfl
      (by decide)).2.1 itemU1S1 (by rfl)).1,
   ((C6_single_read_amended evClaimsU1S1 [itemU1S1] "u1" "s1" (by rfl) rfl
      (by decide)).2.1 itemU1S1 (by rfl)).2,
   (C6_single_read_amended evClaimsU1S1 [] "u1" "s1" (by rfl) rfl
      (by decide)).2.2 (by rfl)⟩

/-- C7 counterexample: the key `("u1", "")` has no stored record, yet the
delete handler returns 400 (empty `settlement_id` is treated as missing),
not the claimed 200. -/
theorem C7_counterexample :
    getItem [] "u1" "" = none ∧
    evEmptySid.pathSettlementId = some "" ∧
    (delete_lambda_handler evEmptySid []).1.statusCode = 400 :=
  ⟨rfl, rfl, rfl⟩

/-- C7 amended: for a present, non-empty `settlement_id`, deleting returns
200 whether or not a record exists, a delete of an absent key leaves the
table unchanged, and repeating the delete returns the same response and the
same final table state. -/
theorem C7_delete_idempotent_amended (e : Event) (σ : Store) (uid sid : String)
    (hid : delete_extract_user_id e = .ok uid) (hsid : e.pathSettlementId = some sid)
    (hne : sid ≠ "") :
    (delete_lambda_handler e σ).1.statusCode = 200 ∧
    (getItem σ uid sid = none → (delete_lambda_handler e σ).2 = σ) ∧
    delete_lambda_handler e ((delete_lambda_handler e σ).2) = delete_lambda_handler e σ := by
  have ht : truthy e.pathSettlementId = some sid := by rw [hsid]; simp [truthy, hne]
  have hδ : ∀ τ : Store, delete_lambda_handler e τ =
      (⟨200, [],
        .obj [("message", .str "Data deleted successfully"), ("user_id", .str uid),
          ("settlement_id", .str sid)]⟩,
       deleteItem τ uid sid) := by
    intro τ
    simp [delete_lambda_handler, hid, ht]
  refine ⟨by rw [hδ], ?_, ?_⟩
  · intro hg
    rw [hδ]
    simp only [deleteItem]
    refine List.filter_eq_self.mpr ?_
    intro it hit
    have hfalse : (it.user_id == uid && it.settlement_id == sid) = false := by
      cases h2 : (it.user_id == uid && it.settlement_id == sid) with
      | false => rfl
      | true => exact absurd h2 (List.find?_eq_none.mp hg it hit)
    simp [hfalse]
  · simp only [hδ]
    simp [deleteItem, filter_idem]

theorem C7_delete_idempotent_witness :
    (delete_lambda_handler evClaimsU1S1 []).1.statusCode = 200 ∧
    (delete_lambda_handler evClaimsU1S1 []).2 = [] ∧
    delete_lambda_handler evClaimsU1S1 ((delete_lambda_handler evClaimsU1S1 []).2) =
      delete_lambda_handler evClaimsU1S1 [] :=
  ⟨(C7_delete_idempotent_amended evClaimsU1S1 [] "u1" "s1" (by rfl) rfl (by decide)).1,
   (C7_delete_idempotent_amended evClaimsU1S1 [] "u1" "s1" (by rfl) rfl
     (by decide)).2.1 (by rfl),
   (C7_delete_idempotent_amended evClaimsU1S1 [] "u1" "s1" (by rfl) rfl (by decide)).2.2⟩

/-- The same event with the `settlement_id` path parameter removed. -/
def eraseSid (e : Event) : Event := { e with pathSettlementId := none }

/-- C10: a present-but-empty `settlement_id` is handled exactly like an
absent one: each handler produces the same result as on the parameter-free
event; concretely the read handler returns the caller's full list and the
write and delete handlers return 400 without touching the table. -/
theorem C10_empty_sid_as_absent (now : String) (e : Event) (σ : Store)
    (hsid : e.pathSettlementId = some "") :
    get_lambda_handler e σ = get_lambda_handler (eraseSid e) σ ∧
    save_lambda_handler now e σ = save_lambda_handler now (eraseSid e) σ ∧
    delete_lambda_handler e σ = delete_lambda_handler (eraseSid e) σ ∧
    (∀ uid, extract_user_id e = .ok uid →
      (get_lambda_handler e σ).1.statusCode = 200 ∧
      (get_lambda_handler e σ).1.body =
        encodeJson (Json.arr ((queryItems σ uid).map itemToJson)) ∧
      (save_lambda_handler now e σ).1.statusCode = 400 ∧
      (save_lambda_handler now e σ).2 = σ) ∧
    (∀ uid, delete_extract_user_id e = .ok uid →
      (delete_lambda_handler e σ).1.statusCode = 400 ∧
      (delete_lambda_handler e σ).2 = σ) := by
  have ht : truthy e.pathSettlementId = none := by rw [hsid]; rfl
  have hts : truthy (eraseSid e).pathSettlementId = none := rfl
  have hex : extract_user_id (eraseSid e) = extract_user_id e := rfl
  have hdx : delete_extract_user_id (eraseSid e) = delete_extract_user_id e := rfl
  refine ⟨?_, ?_, ?_, ?_, ?_⟩
  · rcases hx : extract_user_id e with msg | uid <;>
      simp [get_lambda_handler, hex, hx, ht, hts]
  · rcases hx : extract_user_id e with msg | uid <;>
      simp [save_lambda_handler, hex, hx, ht, hts]
  · rcases hx : delete_extract_user_id e with msg | uid <;>
      simp [delete_lambda_handler, hdx, hx, ht, hts]
  · intro uid hu
    simp [get_lambda_handler, save_lambda_handler, hu, ht]
  · intro uid hu
    simp [delete_lambda_handler, hu, ht]

theorem C10_empty_sid_as_absent_witness :
    get_lambda_handler evEmptySid [] = get_lambda_handler (eraseSid evEmptySid) [] ∧
    (save_lambda_handler "t0" evEmptySid []).1.statusCode = 400 ∧
    (save_lambda_handler "t0" evEmptySid []).2 = [] ∧
    (delete_lambda_handler evEmptySid []).1.statusCode = 400 :=
  ⟨(C10_empty_sid_as_absent "t0" evEmptySid [] rfl).1,
   ((C10_empty_sid_as_absent "t0" evEmptySid [] rfl).2.2.2.1 "u1" (by rfl)).2.2.1,
   ((C10_empty_sid_as_absent "t0" evEmptySid [] rfl).2.2.2.1 "u1" (by rfl)).2.2.2,
   ((C10_empty_sid_as_absent "t0" evEmptySid [] rfl).2.2.2.2 "u1" (by rfl)).1⟩

theorem C5_bad_request_no_mutation_witness :
    ((save_lambda_handler "t0" evClaimsNoSid []).1.statusCode = 400 ∧
      (save_lambda_handler "t0" evClaimsNoSid []).2 = [] ∧
      (delete_lambda_handler evClaimsNoSid []).1.statusCode = 400 ∧
      (delete_lambda_handler evClaimsNoSid []).2 = []) ∧
    ((save_lambda_handler "t0" evBadJson []).1.statusCode = 400 ∧
      (save_lambda_handler "t0" evBadJson []).2 = []) :=
  ⟨(C5_bad_request_no_mutation "t0" evClaimsNoSid [] "u1" (by rfl) (by rfl)).1 rfl,
    (C5_bad_request_no_mutation "t0" evBadJson [] "u1" (by rfl) (by rfl)).2
      "not json" rfl (by rfl)⟩

